import Mathlib

/-!
Shallow embedding of `ompl/base/src/StateStorage.cpp`.

The C++ file persists an ordered collection of opaque states to a binary
archive (marker, state-space signature, state count, metadata size, bulk
state payload) and restores it, re-checking the state-space signature both
while decoding the header and when allocating a precomputed sampler.

Modelling choices:
- machine integers are `Nat`/`Int` with explicit truncation (`% 2 ^ 32`,
  `% 2 ^ 64`) where the C++ uses fixed-width types (`int`, `boost::uint32_t`,
  `std::size_t`); multi-byte fields are little-endian byte lists;
- a `std::istream` is a list of remaining bytes plus `failbit`/`eofbit`;
  `istream::read` extracts as in C++: a failed sentry extracts nothing and
  sets `failbit`, a short read extracts what is left and sets both bits,
  leaving the untouched tail of the destination variable at its prior value;
- the external state space (allocation, per-state serialize/deserialize,
  signature computation, uniform sampling) is a record of pure functions;
- out-of-bounds vector accesses in the C++ (e.g. `sig[0]` on an empty
  signature) make the modelled function return `none` (undefined behavior);
- freeing and allocating state handles is recorded as an event trace so that
  ownership claims can be stated.
-/

namespace StateStorageModel

/-- Little-endian byte encoding of a natural number, `w` bytes wide. -/
def leBytes : Nat → Nat → List Nat
  | 0, _ => []
  | w + 1, v => v % 256 :: leBytes w (v / 256)

/-- Value of a little-endian byte list (each byte taken mod 256). -/
def leVal : List Nat → Nat
  | [] => 0
  | b :: bs => b % 256 + 256 * leVal bs

/-- Encoding of a C `int` value (4 bytes, two's complement, little-endian). -/
def encInt (i : Int) : List Nat := leBytes 4 (i % (2 ^ 32 : Int)).toNat

/-- Decoding of a C `int` value from its 4 bytes. -/
def decInt (bs : List Nat) : Int :=
  let n := leVal bs
  if n < 2 ^ 31 then (n : Int) else (n : Int) - 2 ^ 32

/-- Encoding of a C `std::size_t` value (8 bytes, little-endian). -/
def encSize (n : Nat) : List Nat := leBytes 8 (n % 2 ^ 64)

/-- Model of a `std::istream` used in binary mode: the remaining bytes and
the `failbit`/`eofbit` flags. -/
structure IStream where
  data : List Nat
  failbit : Bool
  eofbit : Bool
  deriving DecidableEq, Repr

/-- `istream::good()`: no failure and no end-of-file seen. -/
def isGood (s : IStream) : Bool := !s.failbit && !s.eofbit

/-- `istream::read(buf, n)` where `init` is the prior contents of the
destination variable (the C++ code zero-initializes every destination).
A failed sentry extracts nothing and sets `failbit`; a short read extracts
the remaining bytes (the tail of the destination keeps its prior value)
and sets `failbit` and `eofbit`; an exact or partial-of-longer read
extracts `n` bytes and sets no flags. -/
def IStream.read (s : IStream) (n : Nat) (init : List Nat) : List Nat × IStream :=
  if s.failbit || s.eofbit then (init, { s with failbit := true })
  else if n ≤ s.data.length then (s.data.take n, { s with data := s.data.drop n })
  else (s.data ++ init.drop s.data.length, { data := [], failbit := true, eofbit := true })

/-- A freshly opened input stream over the given bytes. -/
def freshStream (data : List Nat) : IStream := ⟨data, false, false⟩

/-- Model of a `std::ostream`: the bytes written so far and `good()`. -/
structure OStream where
  data : List Nat
  good : Bool
  deriving DecidableEq, Repr

/-- `ostream::write`: appends when the stream is good. -/
def OStream.write (o : OStream) (bs : List Nat) : OStream :=
  if o.good then { o with data := o.data ++ bs } else o

/-- The external `StateSpace` collaborator, as used by `StateStorage.cpp`:
`computeSignature`, `getSerializationLength`, per-state `serialize` /
`deserialize`, and the uniform sampler obtained from `allocStateSampler`
(`allocStateSampler i` is the `i`-th draw of a freshly allocated sampler).
State allocation is implicit: states are values of `α`. -/
structure StateSpace (α : Type) where
  sig : List Int
  serLen : Nat
  serialize : α → List Nat
  deserialize : List Nat → α
  allocStateSampler : Nat → α

/-- `ompl::base::StateStorage`: the bound state space and the owned,
ordered collection of states. -/
structure StateStorage (α : Type) where
  space : StateSpace α
  states : List α

/-- The decoded archive header fields produced by `loadHeader`. -/
structure Header where
  state_count : Nat
  metadata_size : Nat
  deriving DecidableEq, Repr

/-- The diagnostics `loadHeader` can emit before returning `false`, one per
`msg_` call site in the C++ code. -/
inductive HeaderErr where
  | notReadable
  | badMarker
  | sigMismatch
  | noStateCount
  | noMetadataSize
  | noStateData
  deriving DecidableEq, Repr

/-- State-handle lifecycle events: `freeState` and `allocState` calls made
through the bound state space. -/
inductive Event (α : Type) where
  | free (s : α)
  | alloc (s : α)
  deriving DecidableEq, Repr

/-- What a call to `load` did: deserialized the payload, silently skipped a
zero-length payload (`buffer == NULL`), failed in the header, or failed the
bulk payload read. -/
inductive LoadResult where
  | deserialized (header : Header)
  | skipped (header : Header)
  | headerFailed (e : HeaderErr)
  | truncatedData
  deriving DecidableEq, Repr

/-- `OMPL_ARCHIVE_MARKER = 0x4C504D4F` (spells "OMPL"). -/
def OMPL_ARCHIVE_MARKER : Nat := 0x4C504D4F

/-- The signature-comparing loop of `loadHeader`:
`for (int i = 0 ; in.good() && i < signature_length ; ++i)` reading an
`int` and comparing it with `sig[i + 1]`. `i` is the loop counter and
`rem` the remaining iteration count (`signature_length - i`). Returns
`some (false, s)` for the early `return false` on a mismatch,
`some (true, s)` when the loop exits normally, and `none` when `sig[i + 1]`
is out of bounds (undefined behavior in the C++). -/
def sigLoop (sig : List Int) : Nat → Nat → IStream → Option (Bool × IStream)
  | _, 0, s => some (true, s)
  | i, rem + 1, s =>
    if isGood s then
      let r := s.read 4 (leBytes 4 0)
      match sig.get? (i + 1) with
      | none => none
      | some expected =>
        if decInt r.1 ≠ expected then some (false, r.2)
        else sigLoop sig (i + 1) rem r.2
    else some (true, s)

/-- The tail of `loadHeader` after the signature check: read `state_count`
and `metadata_size` (each guarded by `in.good()` with an error return in the
`else` branch), then fail if `state_count > 0` with the stream not good. -/
def loadCounts (s : IStream) : Except HeaderErr Header × IStream :=
  if ¬ isGood s then (.error .noStateCount, s)
  else
    let r1 := s.read 8 (leBytes 8 0)
    let state_count := leVal r1.1
    if ¬ isGood r1.2 then (.error .noMetadataSize, r1.2)
    else
      let r2 := r1.2.read 8 (leBytes 8 0)
      let metadata_size := leVal r2.1
      if 0 < state_count ∧ ¬ isGood r2.2 then (.error .noStateData, r2.2)
      else (.ok ⟨state_count, metadata_size⟩, r2.2)

/-- `StateStorage::loadHeader`. Returns `none` when the C++ would perform an
out-of-bounds access on the freshly computed signature (undefined behavior),
otherwise the `Except` mirrors the `bool` return with the diagnostic. -/
def loadHeader {α : Type} (sp : StateSpace α) (s : IStream) :
    Option (Except HeaderErr Header × IStream) :=
  if ¬ isGood s ∨ s.eofbit then some (.error .notReadable, s)
  else
    let rm := s.read 4 (leBytes 4 0)
    let marker := leVal rm.1
    if marker ≠ OMPL_ARCHIVE_MARKER then some (.error .badMarker, rm.2)
    else
      let sig := sp.sig
      let r0 := if isGood rm.2 then rm.2.read 4 (leBytes 4 0) else (leBytes 4 0, rm.2)
      let signature_length := decInt r0.1
      match sig.get? 0 with
      | none => none
      | some sig0 =>
        if sig0 ≠ signature_length then some (.error .sigMismatch, r0.2)
        else
          match sigLoop sig 0 signature_length.toNat r0.2 with
          | none => none
          | some (false, s2) => some (.error .sigMismatch, s2)
          | some (true, s2) => some (loadCounts s2)

/-- The per-state deserialization loop of `load`: `state_count` records are
decoded from the buffer, each reading `serLen` bytes at offset
`i * (serLen + metadata_size)`. Reading past the end of the buffer would be
a heap overread in the C++, modelled as `none`. -/
def deserStates {α : Type} (sp : StateSpace α) (buffer : List Nat)
    (l md sc : Nat) : Option (List α) :=
  if sc * (l + md) ≤ buffer.length then
    some ((List.range sc).map fun i => sp.deserialize ((buffer.drop (i * (l + md))).take l))
  else none

/-- `StateStorage::clear`: frees every owned state (recorded as events, in
collection order) and empties the collection. -/
def clear {α : Type} (st : StateStorage α) : StateStorage α × List (Event α) :=
  ({ st with states := [] }, st.states.map Event.free)

/-- The observable outcome of a call to `load`: the storage afterwards, the
alloc/free event trace, what happened, and the final stream state. -/
structure LoadOutcome (α : Type) where
  storage : StateStorage α
  events : List (Event α)
  result : LoadResult
  stream : IStream

/-- `StateStorage::load(std::istream&)`: clear, decode the header, size the
scratch buffer as `state_count * (serLen + metadata_size)` in `std::size_t`
arithmetic, skip everything when the buffer is null (`length == 0`), else
bulk-read and, only if the read did not fail, deserialize each state. -/
def load {α : Type} (st : StateStorage α) (s : IStream) : Option (LoadOutcome α) :=
  let c := clear st
  match loadHeader st.space s with
  | none => none
  | some (.error e, s1) => some ⟨c.1, c.2, .headerFailed e, s1⟩
  | some (.ok header, s1) =>
    let l := st.space.serLen
    let length := header.state_count * (l + header.metadata_size) % 2 ^ 64
    if length = 0 then some ⟨c.1, c.2, .skipped header, s1⟩
    else
      let r := s1.read length (List.replicate length 0)
      if r.2.failbit then some ⟨c.1, c.2, .truncatedData, r.2⟩
      else
        match deserStates st.space r.1 l header.metadata_size header.state_count with
        | none => none
        | some newStates =>
          some ⟨{ st with states := newStates }, c.2 ++ newStates.map Event.alloc,
            .deserialized header, r.2⟩

/-- An `l`-byte serialization record: `serialize` writes into a fixed
`l`-byte slot of the scratch buffer (unwritten buffer bytes modelled as 0;
the external contract is that `serialize` writes exactly `serLen` bytes). -/
def padTo (n : Nat) (bs : List Nat) : List Nat := (bs ++ List.replicate n 0).take n

/-- The payload `store` writes: every owned state serialized into one
contiguous buffer, in collection order, each at its fixed `serLen` offset. -/
def storePayload {α : Type} (sp : StateSpace α) (states : List α) : List Nat :=
  (states.map fun x => padTo sp.serLen (sp.serialize x)).flatten

/-- The exact header byte sequence written by `store`: marker, the full
signature (element 0 being its declared body length), `state_count`,
`metadata_size`. -/
def headerBytes (sig : List Int) (n md : Nat) : List Nat :=
  leBytes 4 OMPL_ARCHIVE_MARKER ++ (sig.map encInt).flatten ++ encSize n ++ encSize md

/-- `StateStorage::store(std::ostream&)`: warn and write nothing on a bad
stream; otherwise write marker, signature, state count, metadata size 0 and
the bulk payload. Writing `&sig[0]` of an empty signature vector is
undefined behavior, modelled as `none`. -/
def store {α : Type} (st : StateStorage α) (out : OStream) : Option OStream :=
  if ¬ out.good then some out
  else if st.space.sig = [] then none
  else
    let o1 := out.write (leBytes 4 OMPL_ARCHIVE_MARKER)
    let o2 := o1.write ((st.space.sig.map encInt).flatten)
    let o3 := o2.write (encSize st.states.length)
    let o4 := o3.write (encSize 0)
    some (o4.write (storePayload st.space st.states))

/-- `StateStorage::addState`: appends the handle to the collection. -/
def addState {α : Type} (st : StateStorage α) (x : α) : StateStorage α :=
  { st with states := st.states ++ [x] }

/-- `StateStorage::generateSamples`: allocate one sampler, then `count`
times allocate a state, sample it uniformly and append it. -/
def generateSamples {α : Type} (st : StateStorage α) (count : Nat) : StateStorage α :=
  let ss := st.space.allocStateSampler
  (List.range count).foldl (fun acc i => addState acc (ss i)) st

/-- The `ompl::Exception` thrown by `allocPrecomputedStateSampler`, carrying
the expected (captured) and actual (freshly computed) signatures. -/
inductive OmplError where
  | signatureMismatch (expected actual : List Int)
  deriving DecidableEq, Repr

/-- `ompl::base::PrecomputedStateSampler`: draws from a fixed collection. -/
structure PrecomputedStateSampler (α : Type) where
  space : StateSpace α
  states : List α

/-- The file-static `allocPrecomputedStateSampler`: recompute the candidate
space's signature, throw on any difference from the captured signature,
otherwise return a precomputed sampler over the captured collection. -/
def allocPrecomputedStateSampler {α : Type} (space : StateSpace α)
    (expectedSignature : List Int) (states : List α) :
    Except OmplError (PrecomputedStateSampler α) :=
  let sig := space.sig
  if sig ≠ expectedSignature then .error (.signatureMismatch expectedSignature sig)
  else .ok ⟨space, states⟩

/-- `StateStorage::getStateSamplerAllocator`: captures the bound space's
current signature and the collection, returning the bound allocator. -/
def getStateSamplerAllocator {α : Type} (st : StateStorage α) :
    StateSpace α → Except OmplError (PrecomputedStateSampler α) :=
  fun space => allocPrecomputedStateSampler space st.space.sig st.states

/-- A signature as the spec's data model describes it: element 0 declares
the length of the remaining elements. -/
def wellFormedSig : List Int → Prop
  | [] => False
  | s0 :: body => s0 = (body.length : Int)

instance : ∀ sig : List Int, Decidable (wellFormedSig sig)
  | [] => isFalse id
  | s0 :: body => decidable_of_iff (s0 = (body.length : Int)) Iff.rfl

/-- A value representable by a C `int`. -/
def intFits (i : Int) : Prop := -(2 ^ 31) ≤ i ∧ i < 2 ^ 31

instance (i : Int) : Decidable (intFits i) := by unfold intFits; infer_instance

/-- The external state-space contract assumed by the spec: a well-formed
signature with `int`-representable elements, `serialize` writing exactly
`getSerializationLength` bytes, and `deserialize` restoring a state with
the same serialization. -/
structure SpaceOk {α : Type} (sp : StateSpace α) : Prop where
  wf : wellFormedSig sp.sig
  fits : ∀ i ∈ sp.sig, intFits i
  ser_len : ∀ x, (sp.serialize x).length = sp.serLen
  ser_deser : ∀ x, sp.serialize (sp.deserialize (sp.serialize x)) = sp.serialize x

/-- A concrete state space over raw byte-list states (serialization is the
fixed-width record itself), used for concrete checks. -/
def listSpace (l : Nat) (sigv : List Int) : StateSpace (List Nat) where
  sig := sigv
  serLen := l
  serialize := fun s => padTo l s
  deserialize := fun b => b.take l
  allocStateSampler := fun i => List.replicate l i

/-- A concrete state space whose signature is empty, exercising the
out-of-bounds `sig[0]` access of `loadHeader`. -/
def emptySigSpace : StateSpace Unit where
  sig := []
  serLen := 0
  serialize := fun _ => []
  deserialize := fun _ => ()
  allocStateSampler := fun _ => ()

/-- A concrete state space whose per-state serialization length is zero,
exercising the `length == 0` null-buffer path of `load`. -/
def unitSpace : StateSpace Unit where
  sig := [0]
  serLen := 0
  serialize := fun _ => []
  deserialize := fun _ => ()
  allocStateSampler := fun _ => ()

/-! ### Byte-encoding lemmas -/

@[simp]
lemma leBytes_length (w v : Nat) : (leBytes w v).length = w := by
  induction w generalizing v with
  | zero => simp [leBytes]
  | succ w ih => simp [leBytes, ih]

lemma leVal_leBytes (w v : Nat) : leVal (leBytes w v) = v % 256 ^ w := by
  induction w generalizing v with
  | zero => simp [leBytes, leVal, Nat.mod_one]
  | succ w ih =>
    rw [leBytes, leVal, ih, pow_succ', Nat.mod_mul]
    omega

@[simp]
lemma encInt_length (i : Int) : (encInt i).length = 4 := by simp [encInt]

@[simp]
lemma encSize_length (n : Nat) : (encSize n).length = 8 := by simp [encSize]

lemma leVal_encSize {n : Nat} (h : n < 2 ^ 64) : leVal (encSize n) = n := by
  rw [encSize, leVal_leBytes, Nat.mod_eq_of_lt h]
  norm_num
  omega

lemma decInt_encInt {i : Int} (h : intFits i) : decInt (encInt i) = i := by
  obtain ⟨h1, h2⟩ := h
  rw [decInt, encInt, leVal_leBytes]
  have hm0 : (0 : Int) ≤ i % 2 ^ 32 := Int.emod_nonneg i (by norm_num)
  have hm1 : i % 2 ^ 32 < 2 ^ 32 := Int.emod_lt_of_pos i (by norm_num)
  have ht : ((i % 2 ^ 32).toNat : Int) = i % 2 ^ 32 := Int.toNat_of_nonneg hm0
  have hmod : (i % (2 ^ 32 : Int)).toNat % 256 ^ 4 = (i % (2 ^ 32 : Int)).toNat := by
    apply Nat.mod_eq_of_lt
    have : (256 : Nat) ^ 4 = 2 ^ 32 := by norm_num
    omega
  rw [hmod]
  split <;> omega

lemma leVal_replicate_zero (k : Nat) : leVal (List.replicate k 0) = 0 := by
  induction k with
  | zero => simp [leVal]
  | succ k ih => simp [List.replicate, leVal, ih]

lemma leVal_append_zeros (u : List Nat) (k : Nat) :
    leVal (u ++ List.replicate k 0) = leVal u := by
  induction u with
  | nil => simp [leVal, leVal_replicate_zero]
  | cons b bs ih => simp [leVal, ih]

lemma leBytes_zero (w : Nat) : leBytes w 0 = List.replicate w 0 := by
  induction w with
  | zero => simp [leBytes]
  | succ w ih => simp [leBytes, List.replicate, ih]

/-! ### Stream lemmas -/

lemma read_exact {a rest init : List Nat} {n : Nat} (h : a.length = n) :
    IStream.read ⟨a ++ rest, false, false⟩ n init = (a, ⟨rest, false, false⟩) := by
  subst h
  simp [IStream.read, List.take_left, List.drop_left]

lemma read_short {data init : List Nat} {n : Nat} (h : data.length < n) :
    IStream.read ⟨data, false, false⟩ n init =
      (data ++ init.drop data.length, ⟨[], true, true⟩) := by
  rw [IStream.read]
  simp only [Bool.or_self, Bool.false_eq_true, if_false]
  rw [if_neg (by omega)]

@[simp]
lemma isGood_fresh (data : List Nat) : isGood (freshStream data) = true := rfl

lemma read_exact' {a rest init : List Nat} {n : Nat} (h : a.length = n) :
    (freshStream (a ++ rest)).read n init = (a, freshStream rest) :=
  read_exact h

lemma read_short' {data init : List Nat} {n : Nat} (h : data.length < n) :
    (freshStream data).read n init =
      (data ++ init.drop data.length, ⟨[], true, true⟩) :=
  read_short h

lemma read_all {a init : List Nat} {n : Nat} (h : a.length = n) :
    (freshStream a).read n init = (a, freshStream []) := by
  have h2 : (freshStream (a ++ [])).read n init = (a, freshStream []) := read_exact' h
  rwa [List.append_nil] at h2

/-! ### Signature-loop lemmas -/

lemma sigLoop_match (sig sb : List Int) (rest : List Nat) (i : Nat)
    (hfits : ∀ x ∈ sb, intFits x)
    (hag : ∀ j : Nat, sb.get? j = sig.get? (i + 1 + j)) :
    sigLoop sig i sb.length (freshStream ((sb.map encInt).flatten ++ rest)) =
      some (true, freshStream rest) := by
  induction sb generalizing i rest with
  | nil => simp [sigLoop, freshStream]
  | cons x tl ih =>
    have hx : sig.get? (i + 1) = some x := by simpa using (hag 0).symm
    have hstream : ((x :: tl).map encInt).flatten ++ rest =
        encInt x ++ ((tl.map encInt).flatten ++ rest) := by
      simp [List.append_assoc]
    rw [List.length_cons, sigLoop, hstream]
    simp only [isGood_fresh, if_true, read_exact' (encInt_length x), hx,
      decInt_encInt (hfits x (by simp)), ne_eq, not_true_eq_false, if_false]
    exact ih rest (i + 1) (fun y hy => hfits y (List.mem_cons_of_mem x hy))
      (fun j => by simpa [show i + 1 + 1 + j = i + 1 + (j + 1) from by omega] using hag (j + 1))

lemma sigLoop_mismatch (sig pre : List Int) (x : Int) (suf : List Int)
    (rest : List Nat) (i : Nat) (y : Int)
    (hfits : ∀ e ∈ pre ++ [x], intFits e)
    (hag : ∀ j : Nat, j < pre.length → pre.get? j = sig.get? (i + 1 + j))
    (hy : sig.get? (i + 1 + pre.length) = some y) (hne : x ≠ y) :
    sigLoop sig i (pre ++ x :: suf).length
        (freshStream (((pre ++ x :: suf).map encInt).flatten ++ rest)) =
      some (false, freshStream ((suf.map encInt).flatten ++ rest)) := by
  induction pre generalizing i rest with
  | nil =>
    have hx : sig.get? (i + 1) = some y := by simpa using hy
    have hstream : (((x :: suf)).map encInt).flatten ++ rest =
        encInt x ++ ((suf.map encInt).flatten ++ rest) := by
      simp [List.append_assoc]
    rw [List.nil_append, List.length_cons, sigLoop, hstream]
    simp only [isGood_fresh, if_true, read_exact' (encInt_length x), hx,
      decInt_encInt (hfits x (by simp)), ne_eq]
    rw [if_pos hne]
  | cons p tl ih =>
    have hp : sig.get? (i + 1) = some p := by simpa using (hag 0 (by simp)).symm
    have hstream : ((p :: (tl ++ x :: suf)).map encInt).flatten ++ rest =
        encInt p ++ (((tl ++ x :: suf).map encInt).flatten ++ rest) := by
      simp [List.append_assoc]
    rw [List.cons_append, List.length_cons, sigLoop, hstream]
    simp only [isGood_fresh, if_true, read_exact' (encInt_length p), hp,
      decInt_encInt (hfits p (by simp)), ne_eq, not_true_eq_false, if_false]
    exact ih rest (i + 1) (fun e he => hfits e (by simp at he ⊢; tauto))
      (fun j hj => by
        simpa [show i + 1 + 1 + j = i + 1 + (j + 1) from by omega] using hag (j + 1) (by simpa))
      (by simpa [show i + 1 + 1 + tl.length = i + 1 + (tl.length + 1) from by omega] using hy)

/-! ### Header-decoding lemmas -/

@[simp]
lemma freshStream_failbit (d : List Nat) : (freshStream d).failbit = false := rfl

@[simp]
lemma freshStream_eofbit (d : List Nat) : (freshStream d).eofbit = false := rfl

@[simp]
lemma freshStream_data (d : List Nat) : (freshStream d).data = d := rfl

lemma wellFormedSig_iff {sig : List Int} :
    wellFormedSig sig ↔ ∃ body : List Int, sig = (body.length : Int) :: body := by
  cases sig with
  | nil => simp [wellFormedSig]
  | cons a l =>
    constructor
    · intro h
      exact ⟨l, by rw [show a = (l.length : Int) from h]⟩
    · rintro ⟨body, heq⟩
      obtain ⟨h1, h2⟩ := List.cons.inj heq
      subst h2
      exact h1

lemma leVal_marker : leVal (leBytes 4 OMPL_ARCHIVE_MARKER) = OMPL_ARCHIVE_MARKER := by
  rw [leVal_leBytes, OMPL_ARCHIVE_MARKER]
  norm_num

lemma loadCounts_exact {n md : Nat} (rest : List Nat) (hn : n < 2 ^ 64) (hmd : md < 2 ^ 64) :
    loadCounts (freshStream (encSize n ++ (encSize md ++ rest))) =
      (.ok ⟨n, md⟩, freshStream rest) := by
  rw [loadCounts]
  simp only [isGood_fresh, not_true_eq_false, if_false,
    read_exact' (encSize_length n), read_exact' (encSize_length md),
    leVal_encSize hn, leVal_encSize hmd, and_false, ite_false]

lemma loadCounts_absent_count {t : List Nat} (h : t.length < 8) :
    loadCounts (freshStream t) = (.error .noMetadataSize, ⟨[], true, true⟩) := by
  rw [loadCounts]
  simp only [isGood_fresh, not_true_eq_false, if_false, read_short' h]
  simp [isGood]

lemma loadCounts_absent_metadata {sc : Nat} {u : List Nat} (hsc : sc < 2 ^ 64)
    (hu : u.length < 8) :
    loadCounts (freshStream (encSize sc ++ u)) =
      if 0 < sc then (.error .noStateData, ⟨[], true, true⟩)
      else (.ok ⟨sc, leVal u⟩, ⟨[], true, true⟩) := by
  have hmd : leVal (u ++ (leBytes 8 0).drop u.length) = leVal u := by
    rw [leBytes_zero, List.drop_replicate, leVal_append_zeros]
  rw [loadCounts]
  simp only [isGood_fresh, not_true_eq_false, if_false,
    read_exact' (encSize_length sc), leVal_encSize hsc, read_short' hu, hmd]
  simp [isGood]

lemma loadHeader_sig_ok {α : Type} (sp : StateSpace α) (rest : List Nat)
    (hwf : wellFormedSig sp.sig) (hfits : ∀ x ∈ sp.sig, intFits x) :
    loadHeader sp (freshStream
        (leBytes 4 OMPL_ARCHIVE_MARKER ++ ((sp.sig.map encInt).flatten ++ rest))) =
      some (loadCounts (freshStream rest)) := by
  obtain ⟨body, hsig⟩ := wellFormedSig_iff.mp hwf
  have hfits0 : intFits ((body.length : Nat) : Int) := hfits _ (by rw [hsig]; simp)
  rw [loadHeader]
  simp only [isGood_fresh, not_true_eq_false, freshStream_eofbit, or_self, if_false,
    read_exact' (leBytes_length 4 OMPL_ARCHIVE_MARKER), leVal_marker, ne_eq,
    not_true_eq_false, ite_false]
  rw [if_neg (by simp)]
  rw [hsig]
  simp only [isGood_fresh, if_true, List.map_cons, List.flatten_cons, List.append_assoc,
    read_exact' (encInt_length _), decInt_encInt hfits0, List.get?_cons_zero, ne_eq,
    not_true_eq_false, ite_false, Int.toNat_natCast]
  rw [sigLoop_match (((body.length : Nat) : Int) :: body) body rest 0
    (fun x hx => hfits x (by rw [hsig]; exact List.mem_cons_of_mem _ hx))
    (fun j => by simp [show 0 + 1 + j = j + 1 from by omega])]

lemma loadHeader_match {α : Type} (sp : StateSpace α) (n md : Nat) (rest : List Nat)
    (hwf : wellFormedSig sp.sig) (hfits : ∀ x ∈ sp.sig, intFits x)
    (hn : n < 2 ^ 64) (hmd : md < 2 ^ 64) :
    loadHeader sp (freshStream (headerBytes sp.sig n md ++ rest)) =
      some (.ok ⟨n, md⟩, freshStream rest) := by
  have h := loadHeader_sig_ok sp (encSize n ++ (encSize md ++ rest)) hwf hfits
  rw [headerBytes] at *
  simp only [List.append_assoc] at h ⊢
  rw [h, loadCounts_exact rest hn hmd]

lemma first_diff {a b : List Int} (hlen : a.length = b.length) (hne : a ≠ b) :
    ∃ (pre : List Int) (x y : Int) (sa sb : List Int),
      a = pre ++ x :: sa ∧ b = pre ++ y :: sb ∧ x ≠ y := by
  induction a generalizing b with
  | nil =>
    cases b with
    | nil => exact absurd rfl hne
    | cons hb tb => simp at hlen
  | cons ha ta ih =>
    cases b with
    | nil => simp at hlen
    | cons hb tb =>
      by_cases hh : ha = hb
      · subst hh
        have hta : ta ≠ tb := fun h => hne (by rw [h])
        obtain ⟨pre, x, y, sa, sb, h1, h2, hxy⟩ := ih (by simpa using hlen) hta
        exact ⟨ha :: pre, x, y, sa, sb, by simp [h1], by simp [h2], hxy⟩
      · exact ⟨[], ha, hb, ta, tb, rfl, rfl, hh⟩

lemma loadHeader_mismatch {α : Type} (sp : StateSpace α) (stored : List Int)
    (n md : Nat) (rest : List Nat)
    (hwfL : wellFormedSig sp.sig) (hwfS : wellFormedSig stored)
    (hfL : ∀ x ∈ sp.sig, intFits x) (hfS : ∀ x ∈ stored, intFits x)
    (hne : stored ≠ sp.sig) :
    ∃ s2 : IStream, loadHeader sp (freshStream (headerBytes stored n md ++ rest)) =
      some (.error .sigMismatch, s2) ∧ rest <:+ s2.data ∧
      s2.failbit = false ∧ s2.eofbit = false := by
  obtain ⟨lb, hsigL⟩ := wellFormedSig_iff.mp hwfL
  obtain ⟨tb, hsigS⟩ := wellFormedSig_iff.mp hwfS
  have hfitsT : intFits ((tb.length : Nat) : Int) := hfS _ (by rw [hsigS]; simp)
  rw [headerBytes, hsigS, loadHeader]
  rw [if_neg (by simp)]
  simp only [List.map_cons, List.flatten_cons, List.append_assoc,
    read_exact' (leBytes_length 4 OMPL_ARCHIVE_MARKER), leVal_marker, ne_eq,
    eq_self_iff_true, not_true, if_false, isGood_fresh, if_true,
    read_exact' (encInt_length _), decInt_encInt hfitsT, hsigL, List.get?_cons_zero]
  by_cases hlen : ((lb.length : Nat) : Int) = ((tb.length : Nat) : Int)
  · have hlen' : tb.length = lb.length := by exact_mod_cast hlen.symm
    have htb : tb ≠ lb := by
      intro h
      exact hne (by rw [hsigS, hsigL, h])
    obtain ⟨pre, x, y, sa, sb, h1, h2, hxy⟩ := first_diff hlen' htb
    rw [if_neg (by simp [hlen])]
    rw [Int.toNat_natCast, h1]
    rw [sigLoop_mismatch (((lb.length : Nat) : Int) :: lb) pre x sa _ 0 y
      (fun e he => by
        refine hfS e ?_
        rw [hsigS, h1]
        simp only [List.mem_cons, List.mem_append, List.mem_singleton] at he ⊢
        tauto)
      (fun j hj => by
        rw [h2]
        simp only [show 0 + 1 + j = j + 1 from by omega, List.get?_cons_succ]
        exact (List.get?_append hj).symm)
      (by
        rw [h2]
        simp only [show 0 + 1 + pre.length = pre.length + 1 from by omega,
          List.get?_cons_succ]
        rw [List.get?_append_right (le_refl pre.length)]
        simp)
      hxy]
    refine ⟨_, rfl, ?_, rfl, rfl⟩
    rw [show (sa.map encInt).flatten ++ (encSize n ++ (encSize md ++ rest)) =
      ((sa.map encInt).flatten ++ encSize n ++ encSize md) ++ rest by simp [List.append_assoc]]
    exact List.suffix_append _ rest
  · rw [if_pos (by simpa using hlen)]
    refine ⟨_, rfl, ?_, rfl, rfl⟩
    rw [show (tb.map encInt).flatten ++ (encSize n ++ (encSize md ++ rest)) =
      ((tb.map encInt).flatten ++ encSize n ++ encSize md) ++ rest by simp [List.append_assoc]]
    exact List.suffix_append _ rest

/-! ### Store and payload lemmas -/

lemma store_spec {α : Type} (sp : StateSpace α) (ss : List α) (hsig : sp.sig ≠ []) :
    store ⟨sp, ss⟩ ⟨[], true⟩ =
      some ⟨headerBytes sp.sig ss.length 0 ++ storePayload sp ss, true⟩ := by
  rw [store]
  simp [OStream.write, headerBytes, hsig, List.append_assoc]

@[simp]
lemma padTo_length (n : Nat) (bs : List Nat) : (padTo n bs).length = n := by
  simp [padTo]

lemma padTo_eq {n : Nat} {bs : List Nat} (h : bs.length = n) : padTo n bs = bs := by
  rw [padTo, ← h, List.take_left]

lemma storePayload_length {α : Type} (sp : StateSpace α) (ss : List α) :
    (storePayload sp ss).length = ss.length * sp.serLen := by
  rw [storePayload]
  induction ss with
  | nil => simp
  | cons a t ih =>
    simp only [List.map_cons, List.flatten_cons, List.length_append, padTo_length,
      List.length_cons, ih]
    ring

lemma drop_length_append {a b : List Nat} (k : Nat) :
    (a ++ b).drop (a.length + k) = b.drop k := by
  induction a with
  | nil => simp
  | cons x t ih => simpa [Nat.succ_add] using ih

lemma flatten_slice {l : Nat} (bss : List (List Nat)) (h : ∀ b ∈ bss, b.length = l) :
    ∀ i, i < bss.length → (bss.flatten.drop (i * l)).take l = bss.getD i [] := by
  induction bss with
  | nil => intro i hi; simp at hi
  | cons b t ih =>
    intro i hi
    cases i with
    | zero =>
      have hb : b.length = l := h b (by simp)
      simp only [Nat.zero_mul, List.drop_zero, List.flatten_cons, List.getD_cons_zero]
      rw [← hb, List.take_left]
    | succ i =>
      have hb : b.length = l := h b (by simp)
      rw [List.flatten_cons, show (i + 1) * l = b.length + i * l from by rw [hb]; ring,
        drop_length_append, List.getD_cons_succ]
      exact ih (fun x hx => h x (by simp [hx])) i (by simpa using hi)

/-! ### Load-path lemmas -/

lemma loadCounts_ok_zero {s s' : IStream} {h : Header}
    (heq : loadCounts s = (.ok h, s')) (hfb : s'.failbit = true) : h.state_count = 0 := by
  rw [loadCounts] at heq
  split at heq
  · simp at heq
  · dsimp only at heq
    split at heq
    · simp at heq
    · split at heq
      · simp at heq
      · rename_i hguard
        simp only [Prod.mk.injEq, Except.ok.injEq] at heq
        obtain ⟨hh, hs⟩ := heq
        subst hs
        rw [← hh]
        by_contra hc
        exact hguard ⟨Nat.pos_of_ne_zero (by simpa using hc), by simp [isGood, hfb]⟩

lemma loadHeader_ok_counts {α : Type} {sp : StateSpace α} {s s' : IStream} {h : Header}
    (heq : loadHeader sp s = some (.ok h, s')) :
    ∃ s2, loadCounts s2 = (.ok h, s') := by
  rw [loadHeader] at heq
  dsimp only at heq
  repeat' split at heq
  all_goals try exact ⟨_, Option.some.inj heq⟩
  all_goals simp at heq

lemma load_failbit_empty {α : Type} {st : StateStorage α} {s : IStream}
    {out : LoadOutcome α} (heq : load st s = some out)
    (hfb : out.stream.failbit = true) : out.storage.states = [] := by
  rw [load] at heq
  split at heq
  · simp at heq
  · obtain rfl := Option.some.inj heq
    simp [clear]
  · dsimp only at heq
    split at heq
    · obtain rfl := Option.some.inj heq
      simp [clear]
    · split at heq
      next hfail =>
        obtain rfl := Option.some.inj heq
        simp [clear]
      next hok =>
        split at heq
        · simp at heq
        · obtain rfl := Option.some.inj heq
          exact absurd hfb hok

/-! ### generateSamples lemmas -/

lemma foldl_addState {α : Type} (f : Nat → α) :
    ∀ (l : List Nat) (st : StateStorage α),
      (l.foldl (fun acc i => addState acc (f i)) st).states = st.states ++ l.map f := by
  intro l
  induction l with
  | nil => intro st; simp
  | cons x t ih =>
    intro st
    rw [List.map_cons, List.foldl_cons, ih]
    simp [addState, List.append_assoc]

lemma generateSamples_states {α : Type} (st : StateStorage α) (k : Nat) :
    (generateSamples st k).states =
      st.states ++ (List.range k).map st.space.allocStateSampler := by
  rw [generateSamples]
  exact foldl_addState st.space.allocStateSampler (List.range k) st

lemma deserStates_length {α : Type} {sp : StateSpace α} {buffer : List Nat}
    {l md sc : Nat} {out : List α} (h : deserStates sp buffer l md sc = some out) :
    out.length = sc := by
  rw [deserStates] at h
  split at h
  · obtain rfl := Option.some.inj h
    simp
  · simp at h

/-! ### Claim theorems -/

/-- C9: a successful `generateSamples k` on a collection of size `n` leaves
exactly `n + k` states, the first `n` unchanged and the `k` new states
appended at the end in generation order, each drawn from the state space's
uniform sampler. -/
theorem c9_generateSamples_appends {α : Type} (st : StateStorage α) (k : Nat) :
    (generateSamples st k).states.length = st.states.length + k ∧
    (generateSamples st k).states.take st.states.length = st.states ∧
    (generateSamples st k).states.drop st.states.length =
      (List.range k).map st.space.allocStateSampler := by
  refine ⟨?_, ?_, ?_⟩ <;> rw [generateSamples_states] <;>
    simp [List.take_left, List.drop_left]

/-- C4: invoking the sampler factory obtained from an archive with a state
space whose freshly computed signature differs from the captured one raises
(yields the signature-mismatch exception, no sampler); with an exactly equal
signature it returns a precomputed sampler backed by the archive's
collection. -/
theorem c4_sampler_factory_check {α : Type} (st : StateStorage α) (spB : StateSpace α) :
    (spB.sig ≠ st.space.sig →
      getStateSamplerAllocator st spB =
        .error (.signatureMismatch st.space.sig spB.sig)) ∧
    (spB.sig = st.space.sig →
      getStateSamplerAllocator st spB = .ok ⟨spB, st.states⟩) := by
  constructor <;> intro h <;>
    simp [getStateSamplerAllocator, allocPrecomputedStateSampler, h]

theorem c4_sampler_factory_check_witness :
    (getStateSamplerAllocator ⟨listSpace 1 [1, 5], [[9]]⟩ (listSpace 1 [1, 6]) =
      .error (.signatureMismatch [1, 5] [1, 6])) ∧
    (getStateSamplerAllocator ⟨listSpace 1 [1, 5], [[9]]⟩ (listSpace 1 [1, 5]) =
      .ok ⟨listSpace 1 [1, 5], [[9]]⟩) :=
  ⟨(c4_sampler_factory_check ⟨listSpace 1 [1, 5], [[9]]⟩ (listSpace 1 [1, 6])).1 (by decide),
   (c4_sampler_factory_check ⟨listSpace 1 [1, 5], [[9]]⟩ (listSpace 1 [1, 5])).2 rfl⟩

/-- C10: once the 4-byte marker matches, `loadHeader` unconditionally reads
element 0 of the live space's freshly computed signature; when that
signature is empty the access is out of bounds (undefined behavior,
modelled as `none`). -/
theorem c10_empty_signature_oob {α : Type} (sp : StateSpace α) (rest : List Nat)
    (hsig : sp.sig = []) :
    loadHeader sp (freshStream (leBytes 4 OMPL_ARCHIVE_MARKER ++ rest)) = none := by
  rw [loadHeader]
  rw [if_neg (by simp)]
  simp only [read_exact' (leBytes_length 4 OMPL_ARCHIVE_MARKER), leVal_marker, ne_eq,
    eq_self_iff_true, not_true, if_false, hsig, List.get?_nil]

theorem c10_empty_signature_oob_witness :
    loadHeader emptySigSpace (freshStream (leBytes 4 OMPL_ARCHIVE_MARKER ++ [])) = none :=
  c10_empty_signature_oob emptySigSpace [] rfl

/-- C2 (amended): every `load` first frees every previously held state
handle and only then produces new ones (the collection is replaced, never
appended to); after a load that actually deserializes, the collection size
equals the decoded `state_count`. However, when the per-record length
`serLen + metadata_size` is zero with `state_count > 0`, `load` skips the
payload silently (`buffer == NULL`) and ends with zero states, so the size
invariant holds only for the deserializing path. -/
theorem c2_load_replaces_amended {α : Type} (st : StateStorage α) (s : IStream)
    (out : LoadOutcome α) (h : load st s = some out) :
    out.events = st.states.map Event.free ++ out.storage.states.map Event.alloc ∧
    (∀ hd, out.result = .deserialized hd → out.storage.states.length = hd.state_count) ∧
    (∀ hd, out.result = .skipped hd → out.storage.states = []) := by
  rw [load] at h
  split at h
  · simp at h
  · obtain rfl := Option.some.inj h
    exact ⟨by simp [clear], fun hd hres => by simp at hres, fun hd hres => by simp at hres⟩
  · dsimp only at h
    split at h
    · obtain rfl := Option.some.inj h
      exact ⟨by simp [clear], fun hd hres => by simp at hres, fun hd hres => by simp [clear]⟩
    · split at h
      next hfail =>
        obtain rfl := Option.some.inj h
        exact ⟨by simp [clear], fun hd hres => by simp at hres, fun hd hres => by simp at hres⟩
      next hok =>
        split at h
        · simp at h
        · rename_i newStates hdeser
          obtain rfl := Option.some.inj h
          refine ⟨by simp [clear], fun hd hres => ?_, fun hd hres => by simp at hres⟩
          dsimp only at hres ⊢
          rw [LoadResult.deserialized.injEq] at hres
          rw [← hres]
          exact deserStates_length hdeser

theorem c2_load_replaces_amended_witness :
    (load ⟨listSpace 1 [0], [[3]]⟩ (freshStream []) =
      some ⟨⟨listSpace 1 [0], []⟩, [Event.free [3]], .headerFailed .badMarker,
        ⟨[], true, true⟩⟩) ∧
    ([Event.free [3]] =
      ([[3]] : List (List Nat)).map Event.free ++ ([] : List (List Nat)).map Event.alloc) :=
  ⟨rfl,
   (c2_load_replaces_amended ⟨listSpace 1 [0], [[3]]⟩ (freshStream [])
      ⟨⟨listSpace 1 [0], []⟩, [Event.free [3]], .headerFailed .badMarker,
        ⟨[], true, true⟩⟩ rfl).1⟩

theorem c2_counterexample :
    ((load ⟨listSpace 0 [1, 3], ([] : List (List Nat))⟩
        (freshStream (headerBytes [1, 3] 1 0))).map fun out =>
          (out.storage.states.length, out.result)) =
      some (0, .skipped ⟨1, 0⟩) ∧ (0 : Nat) ≠ 1 :=
  ⟨rfl, by decide⟩

/-- C6 (amended): a stream exhausted or errored at the `state_count` field
always fails header decoding (the failure is detected by the guard before
the `metadata_size` read, hence reported as the metadata diagnostic); a
stream exhausted at the `metadata_size` field fails decoding only when the
decoded `state_count` is positive — with `state_count == 0` the
`metadata_size` read failure goes undetected and decoding succeeds with the
partially-read (zero-padded) metadata value. -/
theorem c6_truncated_header_amended {α : Type} (sp : StateSpace α)
    (hwf : wellFormedSig sp.sig) (hfits : ∀ x ∈ sp.sig, intFits x) :
    (∀ t : List Nat, t.length < 8 →
      loadHeader sp (freshStream
          (leBytes 4 OMPL_ARCHIVE_MARKER ++ ((sp.sig.map encInt).flatten ++ t))) =
        some (.error .noMetadataSize, ⟨[], true, true⟩)) ∧
    (∀ (sc : Nat) (u : List Nat), sc < 2 ^ 64 → u.length < 8 →
      loadHeader sp (freshStream
          (leBytes 4 OMPL_ARCHIVE_MARKER ++
            ((sp.sig.map encInt).flatten ++ (encSize sc ++ u)))) =
        if 0 < sc then some (.error .noStateData, ⟨[], true, true⟩)
        else some (.ok ⟨sc, leVal u⟩, ⟨[], true, true⟩)) := by
  constructor
  · intro t ht
    rw [loadHeader_sig_ok sp t hwf hfits, loadCounts_absent_count ht]
  · intro sc u hsc hu
    rw [loadHeader_sig_ok sp _ hwf hfits, loadCounts_absent_metadata hsc hu]
    split <;> rfl

theorem c6_truncated_header_amended_witness :
    (loadHeader (listSpace 2 [1, 7]) (freshStream
        (leBytes 4 OMPL_ARCHIVE_MARKER ++ ((([1, 7] : List Int).map encInt).flatten ++ []))) =
      some (.error .noMetadataSize, ⟨[], true, true⟩)) ∧
    (loadHeader (listSpace 2 [1, 7]) (freshStream
        (leBytes 4 OMPL_ARCHIVE_MARKER ++
          ((([1, 7] : List Int).map encInt).flatten ++ (encSize 5 ++ [])))) =
      some (.error .noStateData, ⟨[], true, true⟩)) := by
  constructor
  · exact (c6_truncated_header_amended (listSpace 2 [1, 7]) (by decide) (by decide)).1 []
      (by decide)
  · have h := (c6_truncated_header_amended (listSpace 2 [1, 7]) (by decide) (by decide)).2 5 []
      (by decide) (by decide)
    rw [if_pos (by decide)] at h
    exact h

theorem c6_counterexample :
    loadHeader (listSpace 2 [1, 7]) (freshStream
        (leBytes 4 OMPL_ARCHIVE_MARKER ++
          ((([1, 7] : List Int).map encInt).flatten ++ encSize 0))) =
      some (.ok ⟨0, 0⟩, ⟨[], true, true⟩) := rfl

/-- C7 (amended): on a stream that fails at a header field, header decoding
reports a failure — except when the failure strikes exactly at the
`metadata_size` field with a decoded `state_count` of zero, in which case
decoding succeeds; a successful decode on a stream that has failed always
carries `state_count = 0`, and any `load` whose final stream has `failbit`
set ends with zero states (a read failure never yields a partial
collection, and a mid-signature failure never leads to a nonzero load by
comparing against unread zero-initialized values). -/
theorem c7_header_failure_amended {α : Type} (sp : StateSpace α) (st : StateStorage α) :
    (∀ (s s' : IStream) (h : Header),
      loadHeader sp s = some (.ok h, s') → s'.failbit = true → h.state_count = 0) ∧
    (∀ (s : IStream) (out : LoadOutcome α),
      load st s = some out → out.stream.failbit = true → out.storage.states = []) := by
  constructor
  · intro s s' h heq hfb
    obtain ⟨s2, h2⟩ := loadHeader_ok_counts heq
    exact loadCounts_ok_zero h2 hfb
  · intro s out heq hfb
    exact load_failbit_empty heq hfb

theorem c7_header_failure_amended_witness :
    (Header.mk 0 0).state_count = 0 ∧
    ((⟨⟨listSpace 1 [0], []⟩, [Event.free [9]], .skipped ⟨0, 0⟩,
        ⟨[], true, true⟩⟩ : LoadOutcome (List Nat))).storage.states = [] :=
  ⟨(c7_header_failure_amended (listSpace 1 [0]) ⟨listSpace 1 [0], [[9]]⟩).1
      (freshStream (leBytes 4 OMPL_ARCHIVE_MARKER ++ (encInt 0 ++ encSize 0)))
      ⟨[], true, true⟩ ⟨0, 0⟩ rfl rfl,
   (c7_header_failure_amended (listSpace 1 [0]) ⟨listSpace 1 [0], [[9]]⟩).2
      (freshStream (leBytes 4 OMPL_ARCHIVE_MARKER ++ (encInt 0 ++ encSize 0)))
      (LoadOutcome.mk ⟨listSpace 1 [0], []⟩ [Event.free [9]]
        (.skipped ⟨0, 0⟩) ⟨[], true, true⟩) rfl rfl⟩

theorem c7_counterexample :
    (loadHeader (listSpace 3 [0]) (freshStream
        (leBytes 4 OMPL_ARCHIVE_MARKER ++ (encInt 0 ++ encSize 0))) =
      some (.ok ⟨0, 0⟩, ⟨[], true, true⟩)) ∧
    (⟨[], true, true⟩ : IStream).failbit = true :=
  ⟨rfl, rfl⟩

/-- C5: the signature-compatibility rule applied while decoding a header and
the equality check applied at sampler allocation accept exactly the same
pairs of (stored, live) signatures: decoding an archive header succeeds
precisely when the sampler allocator accepts the same stored signature. -/
theorem c5_compat_equivalence {α : Type} (sp : StateSpace α) (stored : List Int)
    (n md : Nat) (rest : List Nat) (smpStates : List α)
    (hwfL : wellFormedSig sp.sig) (hwfS : wellFormedSig stored)
    (hfL : ∀ x ∈ sp.sig, intFits x) (hfS : ∀ x ∈ stored, intFits x)
    (hn : n < 2 ^ 64) (hmd : md < 2 ^ 64) :
    (∃ h s2, loadHeader sp (freshStream (headerBytes stored n md ++ rest)) =
      some (.ok h, s2)) ↔
    (∃ smp, allocPrecomputedStateSampler sp stored smpStates = .ok smp) := by
  by_cases hs : stored = sp.sig
  · subst hs
    constructor
    · intro _
      refine ⟨⟨sp, smpStates⟩, ?_⟩
      rw [allocPrecomputedStateSampler]
      simp
    · intro _
      exact ⟨⟨n, md⟩, freshStream rest, loadHeader_match sp n md rest hwfL hfL hn hmd⟩
  · constructor
    · intro ⟨h, s2, heq⟩
      obtain ⟨s3, heq3, _⟩ := loadHeader_mismatch sp stored n md rest hwfL hwfS hfL hfS hs
      rw [heq3] at heq
      simp at heq
    · intro ⟨smp, heq⟩
      rw [allocPrecomputedStateSampler] at heq
      rw [if_pos (fun hh => hs hh.symm)] at heq
      simp at heq

theorem c5_compat_equivalence_witness :
    (∃ h s2, loadHeader (listSpace 1 [1, 4])
        (freshStream (headerBytes [1, 4] 0 0 ++ [])) = some (.ok h, s2)) ↔
    (∃ smp, allocPrecomputedStateSampler (listSpace 1 [1, 4]) [1, 4]
        ([] : List (List Nat)) = .ok smp) :=
  c5_compat_equivalence (listSpace 1 [1, 4]) [1, 4] 0 0 [] [] (by decide) (by decide)
    (by decide) (by decide) (by decide) (by decide)

/-- C3: loading an archive stored for a state space whose signature differs
from the live space's signature reports a signature mismatch and leaves the
archive with zero states — never a partial collection — and the state
payload is still unconsumed in the stream when `load` returns (reading
stopped inside the signature, at the first mismatching element). -/
theorem c3_signature_mismatch_load {α : Type} (spA spB : StateSpace α)
    (ss prior : List α)
    (hwfA : wellFormedSig spA.sig) (hwfB : wellFormedSig spB.sig)
    (hfA : ∀ x ∈ spA.sig, intFits x) (hfB : ∀ x ∈ spB.sig, intFits x)
    (hne : spA.sig ≠ spB.sig) :
    ∃ out, ((store ⟨spA, ss⟩ ⟨[], true⟩).bind fun o =>
        load ⟨spB, prior⟩ (freshStream o.data)) = some out ∧
      out.storage.states = [] ∧
      out.result = .headerFailed .sigMismatch ∧
      storePayload spA ss <:+ out.stream.data := by
  have hsA : spA.sig ≠ [] := by
    intro h
    rw [h] at hwfA
    exact hwfA
  obtain ⟨s2, heq, hsuf, hfb, heo⟩ := loadHeader_mismatch spB spA.sig ss.length 0
    (storePayload spA ss) hwfB hwfA hfB hfA hne
  refine ⟨⟨⟨spB, []⟩, prior.map Event.free, .headerFailed .sigMismatch, s2⟩,
    ?_, rfl, rfl, hsuf⟩
  rw [store_spec spA ss hsA]
  show load ⟨spB, prior⟩
      (freshStream (headerBytes spA.sig ss.length 0 ++ storePayload spA ss)) = _
  rw [load, heq]
  rfl

theorem c3_signature_mismatch_load_witness :
    ∃ out, ((store ⟨listSpace 1 [1, 8], [[5]]⟩ ⟨[], true⟩).bind fun o =>
        load ⟨listSpace 1 [1, 9], [[7]]⟩ (freshStream o.data)) = some out ∧
      out.storage.states = [] ∧
      out.result = .headerFailed .sigMismatch ∧
      storePayload (listSpace 1 [1, 8]) [[5]] <:+ out.stream.data :=
  c3_signature_mismatch_load (listSpace 1 [1, 8]) (listSpace 1 [1, 9]) [[5]] [[7]]
    (by decide) (by decide) (by decide) (by decide) (by decide)

/-- C8 (amended): when the header decodes with `state_count > 0` and the
payload holds fewer bytes than `state_count * (serLen + metadata_size)`,
and that product does not overflow `std::size_t`, `load` reports truncated
data and produces zero states — no per-state deserialization happens unless
the single bulk read succeeds completely. (When the product wraps modulo
`2 ^ 64` to zero, `load` instead silently skips the payload, reporting
nothing.) -/
theorem c8_truncated_payload_amended {α : Type} (sp : StateSpace α) (prior : List α)
    (sc md : Nat) (payload : List Nat)
    (hwf : wellFormedSig sp.sig) (hfits : ∀ x ∈ sp.sig, intFits x)
    (hscw : sc < 2 ^ 64) (hmdw : md < 2 ^ 64)
    (hprod : sc * (sp.serLen + md) < 2 ^ 64)
    (hshort : payload.length < sc * (sp.serLen + md)) :
    ∃ out, load ⟨sp, prior⟩
        (freshStream (headerBytes sp.sig sc md ++ payload)) = some out ∧
      out.storage.states = [] ∧ out.result = .truncatedData ∧
      out.events = prior.map Event.free := by
  have hmatch := loadHeader_match sp sc md payload hwf hfits hscw hmdw
  have hlen0 : sc * (sp.serLen + md) % 2 ^ 64 = sc * (sp.serLen + md) :=
    Nat.mod_eq_of_lt hprod
  refine ⟨⟨⟨sp, []⟩, prior.map Event.free, .truncatedData,
    ⟨[], true, true⟩⟩, ?_, rfl, rfl, rfl⟩
  rw [load, hmatch]
  dsimp only
  rw [hlen0, if_neg (by omega), read_short' hshort]
  rfl

theorem c8_truncated_payload_amended_witness :
    ∃ out, load ⟨listSpace 2 [1, 11], ([[1, 2]] : List (List Nat))⟩
        (freshStream (headerBytes [1, 11] 1 0 ++ [5])) = some out ∧
      out.storage.states = [] ∧ out.result = .truncatedData ∧
      out.events = [Event.free [1, 2]] :=
  c8_truncated_payload_amended (listSpace 2 [1, 11]) [[1, 2]] 1 0 [5] (by decide)
    (by decide) (by decide) (by decide) (by decide) (by decide)

theorem c8_counterexample :
    ((load ⟨listSpace 2 [0], ([] : List (List Nat))⟩
        (freshStream (headerBytes [0] (2 ^ 63) 0))).map fun out =>
          (out.storage.states.length, out.result)) =
      some (0, .skipped ⟨2 ^ 63, 0⟩) ∧
    (0 : Nat) < 2 ^ 63 * (2 + 0) :=
  ⟨rfl, by norm_num⟩

lemma listSpace_spaceOk (l : Nat) (sigv : List Int) (hwf : wellFormedSig sigv)
    (hfits : ∀ i ∈ sigv, intFits i) : SpaceOk (listSpace l sigv) := by
  refine ⟨hwf, hfits, fun x => padTo_length l x, fun x => ?_⟩
  show padTo l ((padTo l x).take l) = padTo l x
  rw [List.take_all_of_le (by simp), padTo_eq (padTo_length l x)]

/-- C1 (amended): `store` followed by `load` on a fresh archive bound to the
same state space restores a collection of the same size whose per-state
serialized bytes equal the originals, in the same order — provided the
per-state serialization length is positive (or the archive is empty): with
a zero per-state length and a nonempty collection, `load` takes the
null-buffer path and restores nothing. The count and payload sizes must fit
`std::size_t`, and the state space must honour its serialization
contract. -/
theorem c1_roundtrip_amended {α : Type} (sp : StateSpace α) (ss : List α)
    (hok : SpaceOk sp) (hpos : 0 < sp.serLen ∨ ss = [])
    (hn : ss.length < 2 ^ 64) (hnl : ss.length * sp.serLen < 2 ^ 64) :
    ∃ out, ((store ⟨sp, ss⟩ ⟨[], true⟩).bind fun o =>
        load ⟨sp, []⟩ (freshStream o.data)) = some out ∧
      out.storage.states.length = ss.length ∧
      out.storage.states.map sp.serialize = ss.map sp.serialize := by
  have hsig : sp.sig ≠ [] := by
    intro h
    have hw := hok.wf
    rw [h] at hw
    exact hw
  have hmatch := loadHeader_match sp ss.length 0 (storePayload sp ss) hok.wf hok.fits hn
    (by norm_num)
  have hplen := storePayload_length sp ss
  by_cases hz : ss.length * sp.serLen = 0
  · have hss : ss = [] := by
      rcases hpos with hp | hp
      · rcases Nat.mul_eq_zero.mp hz with h0 | h0
        · exact List.length_eq_zero.mp h0
        · omega
      · exact hp
    subst hss
    refine ⟨⟨⟨sp, []⟩, [], .skipped ⟨0, 0⟩, freshStream (storePayload sp [])⟩, ?_, rfl, rfl⟩
    rw [store_spec sp [] hsig]
    show load ⟨sp, ([] : List α)⟩
        (freshStream (headerBytes sp.sig ([] : List α).length 0 ++ storePayload sp [])) = _
    rw [load, hmatch]
    dsimp only
    rw [if_pos (by simp)]
    rfl
  · have hlen1 : ss.length * (sp.serLen + 0) % 2 ^ 64 = ss.length * sp.serLen := by
      rw [Nat.add_zero]
      exact Nat.mod_eq_of_lt hnl
    have hdeser : deserStates sp (storePayload sp ss) sp.serLen 0 ss.length =
        some ((List.range ss.length).map fun i =>
          sp.deserialize (((storePayload sp ss).drop (i * (sp.serLen + 0))).take sp.serLen)) := by
      rw [deserStates, if_pos (by rw [Nat.add_zero, hplen])]
    refine ⟨⟨⟨sp, (List.range ss.length).map fun i =>
        sp.deserialize (((storePayload sp ss).drop (i * (sp.serLen + 0))).take sp.serLen)⟩,
      ((List.range ss.length).map fun i =>
        sp.deserialize (((storePayload sp ss).drop (i * (sp.serLen + 0))).take sp.serLen)).map
          Event.alloc,
      .deserialized ⟨ss.length, 0⟩, freshStream []⟩, ?_, ?_, ?_⟩
    · rw [store_spec sp ss hsig]
      show load ⟨sp, ([] : List α)⟩
          (freshStream (headerBytes sp.sig ss.length 0 ++ storePayload sp ss)) = _
      rw [load, hmatch]
      dsimp only
      rw [hlen1, if_neg hz, read_all hplen]
      dsimp only
      rw [if_neg (by simp [freshStream]), hdeser]
      rfl
    · simp
    · dsimp only
      refine List.ext_getElem (by simp) ?_
      intro i h1 h2
      have hi : i < ss.length := by simpa using h2
      simp only [List.getElem_map, List.getElem_range]
      have hslice : ((storePayload sp ss).drop (i * (sp.serLen + 0))).take sp.serLen =
          sp.serialize ss[i] := by
        rw [Nat.add_zero, storePayload]
        rw [flatten_slice (ss.map fun x => padTo sp.serLen (sp.serialize x))
          (by
            intro b hb
            simp only [List.mem_map] at hb
            obtain ⟨x, _, rfl⟩ := hb
            exact padTo_length _ _) i (by simpa)]
        rw [List.getD_eq_getElem _ _ (by simpa), List.getElem_map]
        exact padTo_eq (hok.ser_len _)
      rw [hslice, hok.ser_deser]

theorem c1_roundtrip_amended_witness :
    ∃ out, ((store ⟨listSpace 2 [1, 12], ([[1, 2], [3, 4]] : List (List Nat))⟩
        ⟨[], true⟩).bind fun o =>
          load ⟨listSpace 2 [1, 12], []⟩ (freshStream o.data)) = some out ∧
      out.storage.states.length = ([[1, 2], [3, 4]] : List (List Nat)).length ∧
      out.storage.states.map (listSpace 2 [1, 12]).serialize =
        ([[1, 2], [3, 4]] : List (List Nat)).map (listSpace 2 [1, 12]).serialize :=
  c1_roundtrip_amended (listSpace 2 [1, 12]) [[1, 2], [3, 4]]
    (listSpace_spaceOk 2 [1, 12] (by decide) (by decide))
    (Or.inl (by decide)) (by decide) (by decide)

theorem c1_roundtrip_counterexample :
    ((store (⟨unitSpace, [()]⟩ : StateStorage Unit) ⟨[], true⟩).bind fun o =>
        (load ⟨unitSpace, []⟩ (freshStream o.data)).map fun out =>
          out.storage.states.length) = some 0 ∧ (0 : Nat) ≠ 1 :=
  ⟨rfl, by decide⟩

end StateStorageModel
